import Mathlib

/-!
Verification of the shop-drawing QC upload-then-analyze pipeline.

The development shallowly embeds the TypeScript sources of the repository:
  - `src/app/api/analyze/route.ts`          (form analyze variant, no size ceiling)
  - `src/unnamed/part_002` first document   (blob-URL analyze variant, credit/billing mapping)
  - `src/unnamed/part_002` second document  (form analyze variant, 5MB ceiling)
  - `src/unnamed/part_003`                  (form analyze variant, 11MB ceiling)
  - `src/unnamed/part_001`                  (upload endpoints)
  - `src/app/page.tsx`                      (client orchestration, compression guard)

Strings are modelled as `List Char` (`Str`).  `JSON.parse` is a JavaScript
builtin; it is modelled here by an executable recursive-descent parser
(`jsonParse`) for the JSON grammar, with two innocuous simplifications that no
claim touches: numbers are parsed as integers (every number in the payloads of
this repository is an integer) and `\u` string escapes are not interpreted.
Engine-generated exception messages (the text of a `SyntaxError` from
`JSON.parse`, the `TypeError` from reading a property of `null`) are
modelled by representative constant strings; no claim depends on their exact
wording, only on which classifier substrings they do not contain.
-/

/-- Strings of the JavaScript sources, modelled as lists of characters. -/
abbrev Str := List Char

/-- Shorthand turning a Lean string literal into the `Str` model. -/
def S (s : String) : Str := s.data

/-- JSON values, the result type of `JSON.parse`. -/
inductive Json where
  | null : Json
  | bool : Bool → Json
  | num : Int → Json
  | str : Str → Json
  | arr : List Json → Json
  | obj : List (Str × Json) → Json

/-- JSON insignificant whitespace (also the characters trimmed by
`String.prototype.trim` that occur in model output). -/
def isWs : Char → Bool
  | ' ' | '\t' | '\n' | '\r' => true
  | _ => false

/-- Drop leading whitespace. -/
def skipWs (cs : Str) : Str := cs.dropWhile isWs

/-- JSON string escape characters (`\u` escapes are not modelled). -/
def escChar (c : Char) : Option Char :=
  if c = '"' ∨ c = '\\' ∨ c = '/' then some c
  else if c = 'n' then some '\n'
  else if c = 't' then some '\t'
  else if c = 'r' then some '\r'
  else if c = 'b' then some '\x08'
  else if c = 'f' then some '\x0c'
  else none

/-- Parse the body of a JSON string, after the opening quote; returns the
content and the remaining input after the closing quote. -/
def parseStr : Str → Option (Str × Str)
  | [] => none
  | '"' :: rest => some ([], rest)
  | '\\' :: c :: rest =>
    match escChar c with
    | some e => (parseStr rest).map (fun p => (e :: p.1, p.2))
    | none => none
  | c :: rest => (parseStr rest).map (fun p => (c :: p.1, p.2))

/-- Numeric value of a digit string. -/
def natOfDigits (ds : Str) : Nat := ds.foldl (fun a c => a * 10 + (c.toNat - 48)) 0

/-- Parse a JSON number (integer form; the payloads of this repository use
only integer numbers). -/
def parseNum : Str → Option (Int × Str)
  | '-' :: rest =>
    let ds := rest.takeWhile Char.isDigit
    if ds.isEmpty then none else some (-(natOfDigits ds : Int), rest.dropWhile Char.isDigit)
  | cs =>
    let ds := cs.takeWhile Char.isDigit
    if ds.isEmpty then none else some ((natOfDigits ds : Int), cs.dropWhile Char.isDigit)

mutual

/-- Parse one JSON value; fuel-indexed recursive descent. -/
def parseVal : Nat → Str → Option (Json × Str)
  | 0, _ => none
  | fuel + 1, cs =>
    match skipWs cs with
    | '\x7b' :: rest => parseObj fuel rest
    | '[' :: rest => parseArr fuel rest
    | '"' :: rest => (parseStr rest).map (fun p => (Json.str p.1, p.2))
    | 't' :: 'r' :: 'u' :: 'e' :: rest => some (Json.bool true, rest)
    | 'f' :: 'a' :: 'l' :: 's' :: 'e' :: rest => some (Json.bool false, rest)
    | 'n' :: 'u' :: 'l' :: 'l' :: rest => some (Json.null, rest)
    | other => (parseNum other).map (fun p => (Json.num p.1, p.2))

/-- Parse a JSON object body, after the opening brace. -/
def parseObj : Nat → Str → Option (Json × Str)
  | 0, _ => none
  | fuel + 1, cs =>
    match skipWs cs with
    | '\x7d' :: rest => some (Json.obj [], rest)
    | _ => (parseMembers fuel cs).map (fun p => (Json.obj p.1, p.2))

/-- Parse one or more `"key": value` members followed by the closing brace. -/
def parseMembers : Nat → Str → Option (List (Str × Json) × Str)
  | 0, _ => none
  | fuel + 1, cs =>
    match skipWs cs with
    | '"' :: rest =>
      match parseStr rest with
      | none => none
      | some (key, r1) =>
        match skipWs r1 with
        | ':' :: r2 =>
          match parseVal fuel r2 with
          | none => none
          | some (v, r3) =>
            match skipWs r3 with
            | ',' :: r4 =>
              match parseMembers fuel r4 with
              | none => none
              | some (ms, r5) => some ((key, v) :: ms, r5)
            | '\x7d' :: r4 => some ([(key, v)], r4)
            | _ => none
        | _ => none
    | _ => none

/-- Parse a JSON array body, after the opening bracket. -/
def parseArr : Nat → Str → Option (Json × Str)
  | 0, _ => none
  | fuel + 1, cs =>
    match skipWs cs with
    | ']' :: rest => some (Json.arr [], rest)
    | _ => (parseItems fuel cs).map (fun p => (Json.arr p.1, p.2))

/-- Parse one or more array items followed by the closing bracket. -/
def parseItems : Nat → Str → Option (List Json × Str)
  | 0, _ => none
  | fuel + 1, cs =>
    match parseVal fuel cs with
    | none => none
    | some (v, r1) =>
      match skipWs r1 with
      | ',' :: r2 =>
        match parseItems fuel r2 with
        | none => none
        | some (vs, r3) => some (v :: vs, r3)
      | ']' :: r2 => some ([v], r2)
      | _ => none

end

/-- Model of the JavaScript builtin `JSON.parse`: parse a complete JSON text
(`none` models a thrown `SyntaxError`). -/
def jsonParse (cs : Str) : Option Json :=
  match parseVal (cs.length + 1) cs with
  | some (j, rest) => if skipWs rest = [] then some j else none
  | none => none

/-- Model of `String.prototype.trim`: drop whitespace from both ends. -/
def jsTrim (cs : Str) : Str := ((cs.dropWhile isWs).reverse.dropWhile isWs).reverse

/-- Model of `String.prototype.toLowerCase` on the ASCII error messages the
endpoints classify. -/
def toLowerStr (cs : Str) : Str := cs.map Char.toLower

/-- Model of `hay.includes(needle)` (`String.prototype.includes`). -/
def jsIncludes (hay needle : Str) : Bool := hay.tails.any (fun t => needle.isPrefixOf t)

/-- Model of the greedy regular-expression extraction `text.match(/\x7b[\s\S]*\x7d/)`
used by every analyze variant: the span from the first opening brace to the
last closing brace after it, if any. -/
def greedyMatch (cs : Str) : Option Str :=
  let t := cs.dropWhile (fun c => !(c == '\x7b'))
  let u := (t.reverse.dropWhile (fun c => !(c == '\x7d'))).reverse
  if u.isEmpty then none else some u

/-- Last binding of a key in a member list (`JSON.parse` keeps the last of
duplicate keys). -/
def assocLast (k : Str) : List (Str × Json) → Option Json
  | [] => none
  | (k', v) :: rest =>
    match assocLast k rest with
    | some r => some r
    | none => if k' = k then some v else none

/-- Model of JavaScript property read `j[k]` on a parsed JSON value: `none`
models `undefined` (missing key or non-object receiver). -/
def jget (j : Json) (k : Str) : Option Json :=
  match j with
  | .obj kvs => assocLast k kvs
  | _ => none

/-- JavaScript truthiness of a property-read result (`undefined`, `null`,
`false`, `0` and the empty string are falsy). -/
def truthy : Option Json → Bool
  | none => false
  | some .null => false
  | some (.bool b) => b
  | some (.num n) => !(n == 0)
  | some (.str s) => !s.isEmpty
  | some (.arr _) => true
  | some (.obj _) => true

/-- Model of the results-page accessor `results.k?.length || 0`
(`src/app/page.tsx` lines 490-493): the count the UI shows for a list field. -/
def uiLen (j : Json) (k : Str) : Nat :=
  match jget j k with
  | some (.arr l) => l.length
  | some (.str s) => s.length
  | _ => 0

/-- Context hint for backlit projects (identical in all analyze variants). -/
def backlitHint : Str := S " This is a BACKLIT wall - check all backlit requirements carefully."

/-- Context hint for cutouts (identical in all analyze variants). -/
def cutoutsHint : Str := S " This has CUTOUTS - verify cutout border and fabrication notes."

/-- Context hint for corners (identical in all analyze variants). -/
def cornersHint : Str := S " This has CORNERS - check butt joint dimension adjustments."

/-- The `contextNote` accumulation shared by all analyze variants: hints for
`isBacklit`, `hasCutouts` and `hasCorners`, in that order; `hasLogos` is never
consulted (`src/app/api/analyze/route.ts` lines 112-121, `src/unnamed/part_002`
lines 105-114 and 316-325, `src/unnamed/part_003` lines 106-115). -/
def contextNote (pt : Json) : Str :=
  (if truthy (jget pt (S "isBacklit")) then backlitHint else []) ++
  (if truthy (jget pt (S "hasCutouts")) then cutoutsHint else []) ++
  (if truthy (jget pt (S "hasCorners")) then cornersHint else [])

/-- Representative text of an engine `TypeError` thrown by reading a property
of `null` (exact wording engine-specific; no classifier substring occurs in it). -/
def nullReadErrMsg : Str := S "Cannot read properties of null"

/-- Representative text of an engine `SyntaxError` thrown by `JSON.parse`
(exact wording engine-specific; no classifier substring occurs in it). -/
def jsonSyntaxErrMsg : Str := S "Unexpected token in JSON"

/-- The `contextNote` computation of the form variants, which read
`projectType.isBacklit` without optional chaining: a `null` receiver throws. -/
def contextNoteStrict : Json → Except Str Str
  | .null => .error nullReadErrMsg
  | j => .ok (contextNote j)

/-- The `contextNote` computation of the blob-URL variant, which reads
`projectType?.isBacklit` with optional chaining: an absent field yields no
hints. -/
def contextNoteOpt : Option Json → Str
  | none => []
  | some j => contextNote j

/-- Text block sent to the model by the blob-URL, 5MB-form and 11MB-form
variants: prompt, optional project context, and a fixed reminder suffix. -/
def buildText (prompt note : Str) : Str :=
  prompt ++ (if note.isEmpty then [] else S "\n\nPROJECT CONTEXT:" ++ note) ++
    S "\n\nREMEMBER: Output ONLY the JSON object. No other text."

/-- Text block sent to the model by `src/app/api/analyze/route.ts` (line 141):
prompt and optional project context, no reminder suffix. -/
def buildTextRoute (prompt note : Str) : Str :=
  prompt ++ (if note.isEmpty then [] else S "\n\nPROJECT CONTEXT:" ++ note)

/-- Response of an analyze endpoint: `NextResponse.json` of either
`(success, filename, results)` or `(error)` with an HTTP status. -/
inductive ApiResponse where
  | ok (filename : Str) (results : Json)
  | err (status : Nat) (message : Str)

/-- HTTP error status of a response, if it is an error response. -/
def ApiResponse.status : ApiResponse → Option Nat
  | .ok _ _ => none
  | .err s _ => some s

/-- Whether a response is a success response carrying results. -/
def ApiResponse.isSuccess : ApiResponse → Bool
  | .ok _ _ => true
  | .err _ _ => false

/-- Outcome of the `anthropic.messages.create` call: the API rejects with an
error message, or answers without a text block, or answers with text. -/
inductive ModelResult where
  | apiErr (msg : Str)
  | noText
  | text (raw : Str)

/-- A model invocation: the document bytes forwarded (base64 encoding is a
bijection on byte streams and is modelled by carrying the bytes themselves)
and the instruction text block. -/
abbrev ModelReq := Str × Str

/-- Outcome of `fetch(blobUrl)` in the blob-URL variant: network rejection,
a non-ok response, or the fetched bytes. -/
inductive FetchResult where
  | netErr (msg : Str)
  | notOk
  | ok (bytes : Str)

/-- JSON extraction of the blob-URL variant (`src/unnamed/part_002` lines
147-171) and of the 11MB form variant (`src/unnamed/part_003` lines 148-172),
whose code is identical: direct parse when the trimmed response starts with a
brace, then greedy regex extraction, else a fixed diagnostic error. -/
def extractDirectThenRegex (raw : Str) : Except Str Json :=
  let t := jsTrim raw
  match (if t.head? = some '\x7b' then jsonParse t else none) with
  | some r => .ok r
  | none =>
    match greedyMatch t with
    | some m =>
      match jsonParse m with
      | some r => .ok r
      | none => .error (S "Invalid JSON in Claude response")
    | none => .error (S "Could not parse JSON from Claude response.")

/-- JSON extraction of the 5MB form variant (`src/unnamed/part_002` lines
362-393): as `extractDirectThenRegex`, but the final diagnostic carries the
first 100 characters of the trimmed response. -/
def extractForm5 (raw : Str) : Except Str Json :=
  let t := jsTrim raw
  match (if t.head? = some '\x7b' then jsonParse t else none) with
  | some r => .ok r
  | none =>
    match greedyMatch t with
    | some m =>
      match jsonParse m with
      | some r => .ok r
      | none => .error (S "Invalid JSON in Claude response")
    | none =>
      .error (S "Could not parse JSON from Claude response. Response started with: \"" ++
        t.take 100 ++ S "\"")

/-- JSON extraction of `src/app/api/analyze/route.ts` (lines 154-161): greedy
regex extraction on the untrimmed response only; a parse failure of the
matched span propagates the engine `SyntaxError`. -/
def extractRegexOnly (raw : Str) : Except Str Json :=
  match greedyMatch raw with
  | none => .error (S "Could not parse JSON response from Claude")
  | some m =>
    match jsonParse m with
    | some r => .ok r
    | none => .error jsonSyntaxErrMsg

/-- Catch-block classifier of the blob-URL variant (`src/unnamed/part_002`
lines 178-207): credit/billing messages map to 402, PDF-processing messages
to 400, anything else to 500. -/
def classifyCatchBlob (m : Str) : ApiResponse :=
  let low := toLowerStr m
  if jsIncludes low (S "credit balance") || jsIncludes low (S "billing") then
    .err 402 (S "Anthropic API credit balance is too low. Please add credits at console.anthropic.com.")
  else if jsIncludes low (S "could not process pdf") || jsIncludes low (S "invalid_request_error") then
    .err 400 (S "PDF too large or complex to process. Please compress the PDF (reduce image quality to 150 DPI) and try again. In Preview: File → Export → Quartz Filter → Reduce File Size.")
  else
    .err 500 m

/-- Catch-block classifier of the 11MB form variant (`src/unnamed/part_003`
lines 179-198). -/
def classifyCatchForm11 (m : Str) : ApiResponse :=
  let low := toLowerStr m
  if jsIncludes low (S "request entity too large") || jsIncludes low (S "too large") ||
      jsIncludes low (S "413") || jsIncludes low (S "forbidden") then
    .err 413 (S "PDF too large for processing. Please compress to under 11MB using smallpdf.com.")
  else
    .err 500 m

/-- Catch-block classifier of the 5MB form variant (`src/unnamed/part_002`
lines 400-419). -/
def classifyCatchForm5 (m : Str) : ApiResponse :=
  let low := toLowerStr m
  if jsIncludes low (S "forbidden") || jsIncludes low (S "too large") ||
      jsIncludes low (S "request entity too large") then
    .err 413 (S "PDF too large for AI processing. Please compress to under 5MB using smallpdf.com or ilovepdf.com")
  else
    .err 500 m

/-- Tenths of a megabyte (base 1024, rounded to nearest) of a byte count:
the value of `(size / (1024 * 1024)).toFixed(1)` scaled by ten. -/
def mbTenths (size : Nat) : Nat := (size * 10 + 524288) / 1048576

/-- Model of `(size / (1024 * 1024)).toFixed(1)`: one-decimal base-1024
megabyte rendering of a byte count. -/
def toFixed1MB (size : Nat) : Str :=
  Nat.toDigits 10 (mbTenths size / 10) ++ ('.' :: Nat.toDigits 10 (mbTenths size % 10))

/-- An uploaded `File`: name, MIME type, byte size and content bytes. -/
structure FileRec where
  name : Str
  mime : Str
  size : Nat
  bytes : Str

/-- A multipart form analyze request: the `pdf` field (`none` models an
absent file) and the raw `projectType` field (`none` models absence). -/
structure FormReq where
  pdf : Option FileRec
  projectType : Option Str

/-- The parsed body of a blob-URL analyze request
(`src/unnamed/part_002` lines 85-86). -/
structure BlobBody where
  blobUrl : Option Str
  filename : Option Str
  projectType : Option Json

/-- Model of `JSON.parse(formData.get('projectType') as string || '\x7b\x7d')`:
an absent or empty field falls back to the empty-object literal; `none` models
a thrown `SyntaxError`. -/
def parseProjectTypeField : Option Str → Option Json
  | none => jsonParse (S "\x7b\x7d")
  | some [] => jsonParse (S "\x7b\x7d")
  | some s => jsonParse s

/-- Model of `filename || 'document.pdf'` in the blob-URL variant success
response (`src/unnamed/part_002` line 175). -/
def filenameOrDefault : Option Str → Str
  | none => S "document.pdf"
  | some [] => S "document.pdf"
  | some s => s

/-- The 11MB ceiling of `src/unnamed/part_003` (lines 82-83):
`MAX_FILE_SIZE = 11 * 1024 * 1024`. -/
def MAX_FILE_SIZE_11 : Nat := 11 * 1024 * 1024

/-- Size-rejection message of the 11MB form variant (`src/unnamed/part_003`
lines 98-100). -/
def sizeMsg11 (size : Nat) : Str :=
  S "PDF is " ++ toFixed1MB size ++
    S "MB but max is 11MB. Please compress further at smallpdf.com (choose \"Extreme Compression\")."

/-- Size-rejection message of the 5MB form variant (`src/unnamed/part_002`
lines 306-308). -/
def sizeMsg5 (size : Nat) : Str :=
  S "PDF is " ++ toFixed1MB size ++
    S "MB which is too large. Please compress to under 5MB using smallpdf.com or ilovepdf.com before uploading."

/-- The `POST` handler of `src/unnamed/part_003` (11MB form variant),
parameterised by the fixed prompt and by the model endpoint behaviour. -/
def POST_form11 (prompt : Str) (callModel : ModelReq → ModelResult) (req : FormReq) : ApiResponse :=
  match parseProjectTypeField req.projectType with
  | none => classifyCatchForm11 jsonSyntaxErrMsg
  | some pt =>
    match req.pdf with
    | none => .err 400 (S "No PDF file provided")
    | some f =>
      if f.size > MAX_FILE_SIZE_11 then .err 413 (sizeMsg11 f.size)
      else
        match contextNoteStrict pt with
        | .error m => classifyCatchForm11 m
        | .ok note =>
          match callModel (f.bytes, buildText prompt note) with
          | .apiErr m => classifyCatchForm11 m
          | .noText => classifyCatchForm11 (S "No text response from Claude")
          | .text raw =>
            match extractDirectThenRegex raw with
            | .error m => classifyCatchForm11 m
            | .ok results => .ok f.name results

/-- The `POST` handler of the second document of `src/unnamed/part_002`
(5MB form variant). -/
def POST_form5 (prompt : Str) (callModel : ModelReq → ModelResult) (req : FormReq) : ApiResponse :=
  match parseProjectTypeField req.projectType with
  | none => classifyCatchForm5 jsonSyntaxErrMsg
  | some pt =>
    match req.pdf with
    | none => .err 400 (S "No PDF file provided")
    | some f =>
      if f.size > 5 * 1048576 then .err 413 (sizeMsg5 f.size)
      else
        match contextNoteStrict pt with
        | .error m => classifyCatchForm5 m
        | .ok note =>
          match callModel (f.bytes, buildText prompt note) with
          | .apiErr m => classifyCatchForm5 m
          | .noText => classifyCatchForm5 (S "No text response from Claude")
          | .text raw =>
            match extractForm5 raw with
            | .error m => classifyCatchForm5 m
            | .ok results => .ok f.name results

/-- The `POST` handler of `src/app/api/analyze/route.ts` (form variant
without size ceiling; its catch block returns 500 with the raw message). -/
def POST_route (prompt : Str) (callModel : ModelReq → ModelResult) (req : FormReq) : ApiResponse :=
  match parseProjectTypeField req.projectType with
  | none => .err 500 jsonSyntaxErrMsg
  | some pt =>
    match req.pdf with
    | none => .err 400 (S "No PDF file provided")
    | some f =>
      match contextNoteStrict pt with
      | .error m => .err 500 m
      | .ok note =>
        match callModel (f.bytes, buildTextRoute prompt note) with
        | .apiErr m => .err 500 m
        | .noText => .err 500 (S "No text response from Claude")
        | .text raw =>
          match extractRegexOnly raw with
          | .error m => .err 500 m
          | .ok results => .ok f.name results

/-- The `POST` handler of the first document of `src/unnamed/part_002`
(blob-URL variant): fetch the stored PDF, invoke the model, extract, and
classify any failure through the credit/billing-aware catch block. -/
def POST_blob (prompt : Str) (callModel : ModelReq → ModelResult) (fetchPdf : FetchResult)
    (body : BlobBody) : ApiResponse :=
  match body.blobUrl with
  | none => .err 400 (S "No blob URL provided")
  | some [] => .err 400 (S "No blob URL provided")
  | some _ =>
    match fetchPdf with
    | .netErr m => classifyCatchBlob m
    | .notOk => classifyCatchBlob (S "Failed to fetch PDF from storage")
    | .ok bytes =>
      let note := contextNoteOpt body.projectType
      match callModel (bytes, buildText prompt note) with
      | .apiErr m => classifyCatchBlob m
      | .noText => classifyCatchBlob (S "No text response from Claude")
      | .text raw =>
        match extractDirectThenRegex raw with
        | .error m => classifyCatchBlob m
        | .ok results => .ok (filenameOrDefault body.filename) results

/-- Soft compression threshold of `src/app/page.tsx` (line 67):
`TARGET_SIZE = 25 * 1024 * 1024`. -/
def TARGET_SIZE : Nat := 25 * 1024 * 1024

/-- Hard client-side ceiling of `src/app/page.tsx` (line 69):
`MAX_FILE_SIZE = 32 * 1024 * 1024`. -/
def MAX_FILE_SIZE : Nat := 32 * 1024 * 1024

/-- The page state written by `processFile`: the selected file, the error
banner, and the displayed compression result (original, compressed sizes). -/
structure SelectState where
  file : Option FileRec
  error : Option Str
  compression : Option (Nat × Nat)

/-- Message shown when the compressed file still exceeds the hard ceiling
(`src/app/page.tsx` line 177). -/
def stillTooLargeMsg (size : Nat) : Str :=
  S "PDF is " ++ toFixed1MB size ++ S "MB after compression (max 32MB). Please compress at smallpdf.com first."

/-- The `processFile` flow of `src/app/page.tsx` (lines 153-195),
parameterised by the behaviour of `compressPDF` (`none` models a thrown
compression error).  `prev` is the page state before the call; fields the
code does not write in a branch keep their previous value. -/
def processFile (compressPDF : FileRec → Option FileRec) (prev : SelectState)
    (f : FileRec) : SelectState :=
  if f.mime ≠ S "application/pdf" then
    { prev with error := some (S "Please upload a PDF file"), file := none }
  else if f.size > TARGET_SIZE then
    match compressPDF f with
    | none =>
      { file := none,
        error := some (S "Failed to compress PDF. Please try compressing manually at smallpdf.com"),
        compression := none }
    | some cf =>
      if cf.size > MAX_FILE_SIZE then
        { file := none, error := some (stillTooLargeMsg cf.size),
          compression := some (f.size, cf.size) }
      else
        { file := some cf, error := none, compression := some (f.size, cf.size) }
  else
    { file := some f, error := none, compression := none }

/-- Settlement of the effectful steps of one `runAnalysis` run
(`src/app/page.tsx` lines 216-263): whether the blob upload resolves, whether
the analyze fetch resolves, and whether the analyze response is ok. -/
structure RunOutcome where
  uploadOk : Bool
  fetchOk : Bool
  respOk : Bool

/-- The sequence of values assigned to the `progress` state during one
`runAnalysis` run, paired with whether the run settles in the results step
(`true`) or in the error/upload step (`false`). -/
def runAnalysis (o : RunOutcome) : List Nat × Bool :=
  let t0 := [0, 10]
  if !o.uploadOk then (t0, false)
  else
    let t1 := t0 ++ [30]
    if !o.fetchOk then (t1, false)
    else
      let t2 := t1 ++ [70]
      if !o.respOk then (t2, false)
      else (t2 ++ [100], true)

/-- The project-type JSON sent by the quiz page when all four answers are
no: `JSON.stringify` of the initial `projectAnswers` state
(`src/app/page.tsx` lines 133-138). -/
def allFalseProjectType : Str :=
  S "\x7b\"isBacklit\":false,\"hasCutouts\":false,\"hasCorners\":false,\"hasLogos\":false\x7d"

/-- Claim C6: for every selected file whose size is at or below the soft
compression threshold, the compression helper is not invoked (the outcome is
independent of the behaviour of `compressPDF`) and the byte stream carried
forward is the original file unchanged. -/
theorem C6_thm (c1 c2 : FileRec → Option FileRec) (prev : SelectState) (f : FileRec)
    (hsize : f.size ≤ TARGET_SIZE) :
    processFile c1 prev f = processFile c2 prev f ∧
      (f.mime = S "application/pdf" → processFile c1 prev f = ⟨some f, none, none⟩) := by
  have hn : ¬ TARGET_SIZE < f.size := Nat.not_lt.mpr hsize
  by_cases hm : f.mime = S "application/pdf"
  · simp [processFile, hm, hn]
  · simp [processFile, hm]

/-- Witness for C6 at a concrete small PDF and two different compression
behaviours. -/
theorem C6_witness :
    processFile (fun _ => none) ⟨none, none, none⟩ ⟨S "a.pdf", S "application/pdf", 1000, S "b"⟩ =
        processFile (fun g => some g) ⟨none, none, none⟩ ⟨S "a.pdf", S "application/pdf", 1000, S "b"⟩ ∧
      processFile (fun _ => none) ⟨none, none, none⟩ ⟨S "a.pdf", S "application/pdf", 1000, S "b"⟩ =
        ⟨some ⟨S "a.pdf", S "application/pdf", 1000, S "b"⟩, none, none⟩ :=
  ⟨(C6_thm (fun _ => none) (fun g => some g) ⟨none, none, none⟩
      ⟨S "a.pdf", S "application/pdf", 1000, S "b"⟩ (by decide)).1,
    (C6_thm (fun _ => none) (fun g => some g) ⟨none, none, none⟩
      ⟨S "a.pdf", S "application/pdf", 1000, S "b"⟩ (by decide)).2 rfl⟩

/-- Claim C7: a model-call failure whose message contains "credit balance"
(case-insensitively) is mapped by the blob-URL variant to HTTP 402 with the
billing remediation text. -/
theorem C7_thm (prompt fetched : Str) (c : Char) (u : Str) (fn : Option Str)
    (pt : Option Json) (e : Str)
    (h : jsIncludes (toLowerStr e) (S "credit balance") = true) :
    classifyCatchBlob e =
        .err 402 (S "Anthropic API credit balance is too low. Please add credits at console.anthropic.com.") ∧
      POST_blob prompt (fun _ => ModelResult.apiErr e) (.ok fetched) ⟨some (c :: u), fn, pt⟩ =
        .err 402 (S "Anthropic API credit balance is too low. Please add credits at console.anthropic.com.") := by
  have h402 : classifyCatchBlob e =
      .err 402 (S "Anthropic API credit balance is too low. Please add credits at console.anthropic.com.") := by
    simp [classifyCatchBlob, h]
  exact ⟨h402, by simp [POST_blob, h402]⟩

/-- Witness for C7 at a concrete provider message. -/
theorem C7_witness :
    POST_blob (S "P") (fun _ => ModelResult.apiErr (S "Your credit balance is too low"))
        (.ok (S "B")) ⟨some (S "u"), none, none⟩ =
      .err 402 (S "Anthropic API credit balance is too low. Please add credits at console.anthropic.com.") := by
  have := C7_thm (S "P") (S "B") 'u' [] none none (S "Your credit balance is too low") (by decide)
  exact this.2

/-- Claim C8: within one `runAnalysis` run the successive values assigned to
the progress state never decrease, and a run that settles in the results step
ends at 100. -/
theorem C8_thm (o : RunOutcome) :
    List.Chain' (· ≤ ·) (runAnalysis o).1 ∧
      ((runAnalysis o).2 = true → (runAnalysis o).1.getLast? = some 100) := by
  obtain ⟨u, fk, r⟩ := o
  cases u <;> cases fk <;> cases r <;>
    exact ⟨by simp [runAnalysis, List.chain'_cons], by simp [runAnalysis]⟩

/-- Witness for C8 at the all-successful run. -/
theorem C8_witness :
    List.Chain' (· ≤ ·) (runAnalysis ⟨true, true, true⟩).1 ∧
      (runAnalysis ⟨true, true, true⟩).1.getLast? = some 100 :=
  ⟨(C8_thm ⟨true, true, true⟩).1, (C8_thm ⟨true, true, true⟩).2 rfl⟩

/-- Claim C9: a form-variant analyze request that omits the `projectType`
field (or supplies it empty) is processed with the empty-object default: no
context hint is appended, and the whole request behaves exactly as the
all-false project type. -/
theorem C9_thm (prompt : Str) (m : ModelReq → ModelResult) (pdf : Option FileRec) :
    parseProjectTypeField none = some (Json.obj []) ∧
      parseProjectTypeField (some []) = some (Json.obj []) ∧
      contextNote (Json.obj []) = [] ∧
      POST_form11 prompt m ⟨pdf, none⟩ = POST_form11 prompt m ⟨pdf, some allFalseProjectType⟩ ∧
      POST_form11 prompt m ⟨pdf, some []⟩ = POST_form11 prompt m ⟨pdf, some allFalseProjectType⟩ ∧
      POST_route prompt m ⟨pdf, none⟩ = POST_route prompt m ⟨pdf, some allFalseProjectType⟩ ∧
      POST_route prompt m ⟨pdf, some []⟩ = POST_route prompt m ⟨pdf, some allFalseProjectType⟩ :=
  ⟨rfl, rfl, rfl, rfl, rfl, rfl, rfl⟩

/-- Claim C10: two form-variant analyze requests whose project types agree on
`isBacklit`, `hasCutouts` and `hasCorners` (in particular, requests identical
except for `hasLogos`) build the same context note and produce identical
endpoint behaviour for every model behaviour. -/
theorem C10_thm (prompt : Str) (m : ModelReq → ModelResult) (pdf : Option FileRec)
    (s1 s2 : Str) (kvs1 kvs2 : List (Str × Json))
    (h1 : parseProjectTypeField (some s1) = some (Json.obj kvs1))
    (h2 : parseProjectTypeField (some s2) = some (Json.obj kvs2))
    (hb : assocLast (S "isBacklit") kvs1 = assocLast (S "isBacklit") kvs2)
    (hc : assocLast (S "hasCutouts") kvs1 = assocLast (S "hasCutouts") kvs2)
    (hk : assocLast (S "hasCorners") kvs1 = assocLast (S "hasCorners") kvs2) :
    contextNote (Json.obj kvs1) = contextNote (Json.obj kvs2) ∧
      POST_form11 prompt m ⟨pdf, some s1⟩ = POST_form11 prompt m ⟨pdf, some s2⟩ ∧
      POST_route prompt m ⟨pdf, some s1⟩ = POST_route prompt m ⟨pdf, some s2⟩ := by
  have hnote : contextNote (Json.obj kvs1) = contextNote (Json.obj kvs2) := by
    simp [contextNote, jget, hb, hc, hk]
  refine ⟨hnote, ?_, ?_⟩
  · simp only [POST_form11, h1, h2, contextNoteStrict, hnote]
  · simp only [POST_route, h1, h2, contextNoteStrict, hnote]

/-- Witness for C10 at two concrete requests differing only in `hasLogos`. -/
theorem C10_witness :
    POST_form11 (S "P") (fun _ => ModelResult.noText) ⟨none, some allFalseProjectType⟩ =
      POST_form11 (S "P") (fun _ => ModelResult.noText)
        ⟨none, some (S "\x7b\"isBacklit\":false,\"hasCutouts\":false,\"hasCorners\":false,\"hasLogos\":true\x7d")⟩ :=
  (C10_thm (S "P") (fun _ => ModelResult.noText) none allFalseProjectType
    (S "\x7b\"isBacklit\":false,\"hasCutouts\":false,\"hasCorners\":false,\"hasLogos\":true\x7d")
    [(S "isBacklit", Json.bool false), (S "hasCutouts", Json.bool false),
      (S "hasCorners", Json.bool false), (S "hasLogos", Json.bool false)]
    [(S "isBacklit", Json.bool false), (S "hasCutouts", Json.bool false),
      (S "hasCorners", Json.bool false), (S "hasLogos", Json.bool true)]
    rfl rfl rfl rfl rfl).2.1

/-- The greedy brace regex recovers exactly a span that opens with the first
opening brace of the text and closes with the last closing brace: prose
before it containing no opening brace and prose after it containing no
closing brace is stripped. -/
theorem greedyMatch_exact (pre span post : Str)
    (hpre : ∀ c ∈ pre, c ≠ '\x7b') (hpost : ∀ c ∈ post, c ≠ '\x7d')
    (hh : span.head? = some '\x7b') (hl : span.getLast? = some '\x7d') :
    greedyMatch (pre ++ span ++ post) = some span := by
  cases span with
  | nil => simp at hh
  | cons a s0 =>
    simp only [List.head?_cons, Option.some.injEq] at hh
    subst hh
    obtain ⟨w, hr⟩ : ∃ w, ('\x7b' :: s0).reverse = '\x7d' :: w := by
      have hrev : ('\x7b' :: s0).reverse.head? = some '\x7d' := by
        rw [List.head?_reverse]; exact hl
      cases hc : ('\x7b' :: s0).reverse with
      | nil => rw [hc] at hrev; simp at hrev
      | cons b w =>
        rw [hc] at hrev
        simp only [List.head?_cons, Option.some.injEq] at hrev
        exact ⟨w, by rw [hrev]⟩
    have h1 : (pre ++ ('\x7b' :: s0) ++ post).dropWhile (fun c => !(c == '\x7b')) =
        ('\x7b' :: s0) ++ post := by
      rw [List.append_assoc, List.dropWhile_append_of_pos (by intro a ha; simp [hpre a ha]),
        List.cons_append]
      exact List.dropWhile_cons_of_neg (by simp)
    have h2 : (('\x7b' :: s0) ++ post).reverse.dropWhile (fun c => !(c == '\x7d')) =
        ('\x7b' :: s0).reverse := by
      rw [List.reverse_append,
        List.dropWhile_append_of_pos
          (by intro a ha; rw [List.mem_reverse] at ha; simp [hpost a ha]),
        hr]
      exact List.dropWhile_cons_of_neg (by simp)
    simp only [greedyMatch, h1, h2, List.reverse_reverse, List.isEmpty_cons]
    simp

/-- Claim C3: a model response made of prose around a single JSON object span
is recovered exactly by the greedy regex-extraction fallback, and the
regex-only extraction of `route.ts` parses exactly that span. -/
theorem C3_thm (pre span post : Str) (j : Json)
    (hpre : ∀ c ∈ pre, c ≠ '\x7b') (hpost : ∀ c ∈ post, c ≠ '\x7d')
    (hh : span.head? = some '\x7b') (hl : span.getLast? = some '\x7d')
    (hparse : jsonParse span = some j) :
    greedyMatch (pre ++ span ++ post) = some span ∧
      extractRegexOnly (pre ++ span ++ post) = .ok j := by
  have hg := greedyMatch_exact pre span post hpre hpost hh hl
  have hg2 : greedyMatch (pre ++ (span ++ post)) = some span := by
    rw [← List.append_assoc]; exact hg
  exact ⟨hg, by simp [extractRegexOnly, hg2, hparse]⟩

/-- Witness for C3 at a concrete prose-wrapped response. -/
theorem C3_witness :
    greedyMatch (S "Here is the analysis: " ++ S "\x7b\"overallStatus\":\"pass\"\x7d" ++ S " Let me know.") =
        some (S "\x7b\"overallStatus\":\"pass\"\x7d") ∧
      extractRegexOnly (S "Here is the analysis: " ++ S "\x7b\"overallStatus\":\"pass\"\x7d" ++ S " Let me know.") =
        .ok (Json.obj [(S "overallStatus", Json.str (S "pass"))]) :=
  C3_thm (S "Here is the analysis: ") (S "\x7b\"overallStatus\":\"pass\"\x7d") (S " Let me know.")
    (Json.obj [(S "overallStatus", Json.str (S "pass"))])
    (by decide) (by decide) rfl rfl rfl

/-- A well-formed model response that omits all four list fields. -/
def sampleNoListsRaw : Str := S "\x7b\"overallStatus\":\"pass\",\"summary\":\"ok\"\x7d"

/-- The parse of `sampleNoListsRaw`. -/
def sampleNoListsJson : Json :=
  Json.obj [(S "overallStatus", Json.str (S "pass")), (S "summary", Json.str (S "ok"))]

/-- Counterexample to claim C1 as stated: on a response omitting
`criticalIssues`, the blob-URL endpoint returns the parsed object verbatim,
in which the absent field is not defaulted to an empty list (reading it
yields `undefined`, not an empty ordered sequence). -/
theorem C1_counterexample :
    POST_blob (S "P") (fun _ => ModelResult.text sampleNoListsRaw) (.ok (S "B"))
        ⟨some (S "u"), some (S "f.pdf"), none⟩ = .ok (S "f.pdf") sampleNoListsJson ∧
      jget sampleNoListsJson (S "criticalIssues") = none ∧
      (none : Option Json) ≠ some (Json.arr []) :=
  ⟨rfl, rfl, by simp⟩

/-- Reading the hint flags of a project type that parsed to an object never
throws. -/
theorem contextNoteStrict_obj (kvs : List (Str × Json)) :
    contextNoteStrict (Json.obj kvs) = .ok (contextNote (Json.obj kvs)) := rfl

/-- Claim C1 amended: a response whose extraction succeeds is returned to the
caller verbatim by the blob-URL variant and by the 11MB form variant (the
request does not fail on absent list fields), and the page-level count
accessors treat every absent list field as zero-length. -/
theorem C1_thm (prompt bytes : Str) (c : Char) (u : Str) (fn : Option Str)
    (pt : Option Json) (f : FileRec) (ptf : Option Str) (kvs : List (Str × Json))
    (raw : Str) (j : Json)
    (hpt : parseProjectTypeField ptf = some (Json.obj kvs))
    (hsz : f.size ≤ MAX_FILE_SIZE_11)
    (h : extractDirectThenRegex raw = .ok j) :
    POST_blob prompt (fun _ => ModelResult.text raw) (.ok bytes) ⟨some (c :: u), fn, pt⟩ =
        .ok (filenameOrDefault fn) j ∧
      POST_form11 prompt (fun _ => ModelResult.text raw) ⟨some f, ptf⟩ = .ok f.name j ∧
      ∀ k, jget j k = none → uiLen j k = 0 := by
  have hns : ¬ f.size > MAX_FILE_SIZE_11 := Nat.not_lt.mpr hsz
  refine ⟨?_, ?_, ?_⟩
  · simp only [POST_blob, h]
  · simp [POST_form11, hpt, contextNoteStrict_obj, h, hns]
  · intro k hk
    simp [uiLen, hk]

/-- Witness for the amended C1 at the concrete field-omitting response. -/
theorem C1_witness :
    POST_blob (S "P") (fun _ => ModelResult.text sampleNoListsRaw) (.ok (S "B"))
        ⟨some (S "u"), some (S "f.pdf"), none⟩ =
        .ok (filenameOrDefault (some (S "f.pdf"))) sampleNoListsJson ∧
      POST_form11 (S "P") (fun _ => ModelResult.text sampleNoListsRaw)
          ⟨some ⟨S "d.pdf", S "application/pdf", 1000, S "B"⟩, none⟩ =
        .ok (S "d.pdf") sampleNoListsJson ∧
      uiLen sampleNoListsJson (S "criticalIssues") = 0 :=
  ⟨(C1_thm (S "P") (S "B") 'u' [] (some (S "f.pdf")) none
      ⟨S "d.pdf", S "application/pdf", 1000, S "B"⟩ none [] sampleNoListsRaw
      sampleNoListsJson rfl (by decide) rfl).1,
    (C1_thm (S "P") (S "B") 'u' [] (some (S "f.pdf")) none
      ⟨S "d.pdf", S "application/pdf", 1000, S "B"⟩ none [] sampleNoListsRaw
      sampleNoListsJson rfl (by decide) rfl).2.1,
    (C1_thm (S "P") (S "B") 'u' [] (some (S "f.pdf")) none
      ⟨S "d.pdf", S "application/pdf", 1000, S "B"⟩ none [] sampleNoListsRaw
      sampleNoListsJson rfl (by decide) rfl).2.2 (S "criticalIssues") rfl⟩

/-- An oversized upload for the 11MB form variant. -/
def oversizedPdf : FileRec := ⟨S "big.pdf", S "application/pdf", 12 * 1048576, S "BYTES"⟩

/-- Counterexample to claim C5 as stated: an oversized request whose
`projectType` field is malformed fails on `JSON.parse` before the size check
and is answered with 500, not 413. -/
theorem C5_counterexample :
    oversizedPdf.size > MAX_FILE_SIZE_11 ∧
      POST_form11 (S "P") (fun _ => ModelResult.noText) ⟨some oversizedPdf, some (S "oops")⟩ =
        .err 500 jsonSyntaxErrMsg ∧
      (POST_form11 (S "P") (fun _ => ModelResult.noText)
          ⟨some oversizedPdf, some (S "oops")⟩).status ≠ some 413 :=
  ⟨by decide, rfl, by decide⟩

/-- Claim C5 amended: an oversized form-variant request whose `projectType`
field is absent or parses is rejected with 413 and the variant-specific
remediation message; and for every oversized request, the response is
independent of the model behaviour, so no model call is made. -/
theorem C5_thm (prompt : Str) (m m' : ModelReq → ModelResult) (ptf : Option Str)
    (pt : Json) (f : FileRec) (hpt : parseProjectTypeField ptf = some pt) :
    (f.size > MAX_FILE_SIZE_11 →
        POST_form11 prompt m ⟨some f, ptf⟩ = .err 413 (sizeMsg11 f.size)) ∧
      (f.size > 5 * 1048576 →
        POST_form5 prompt m ⟨some f, ptf⟩ = .err 413 (sizeMsg5 f.size)) ∧
      (∀ ptf', f.size > MAX_FILE_SIZE_11 →
        POST_form11 prompt m ⟨some f, ptf'⟩ = POST_form11 prompt m' ⟨some f, ptf'⟩) ∧
      (∀ ptf', f.size > 5 * 1048576 →
        POST_form5 prompt m ⟨some f, ptf'⟩ = POST_form5 prompt m' ⟨some f, ptf'⟩) := by
  refine ⟨?_, ?_, ?_, ?_⟩
  · intro h
    simp only [POST_form11, hpt]
    simp [h]
  · intro h
    simp only [POST_form5, hpt]
    simp [h]
  · intro ptf' h
    cases hp : parseProjectTypeField ptf' with
    | none => simp only [POST_form11, hp]
    | some pt' =>
      simp only [POST_form11, hp]
      simp [h]
  · intro ptf' h
    cases hp : parseProjectTypeField ptf' with
    | none => simp only [POST_form5, hp]
    | some pt' =>
      simp only [POST_form5, hp]
      simp [h]

/-- Witness for the amended C5 at a concrete oversized request. -/
theorem C5_witness :
    POST_form11 (S "P") (fun _ => ModelResult.noText) ⟨some oversizedPdf, none⟩ =
        .err 413 (sizeMsg11 oversizedPdf.size) ∧
      POST_form11 (S "P") (fun _ => ModelResult.noText) ⟨some oversizedPdf, none⟩ =
        POST_form11 (S "P") (fun _ => ModelResult.apiErr (S "x")) ⟨some oversizedPdf, none⟩ :=
  ⟨(C5_thm (S "P") (fun _ => ModelResult.noText) (fun _ => ModelResult.apiErr (S "x"))
      none (Json.obj []) oversizedPdf rfl).1 (by decide),
    (C5_thm (S "P") (fun _ => ModelResult.noText) (fun _ => ModelResult.apiErr (S "x"))
      none (Json.obj []) oversizedPdf rfl).2.2.1 none (by decide)⟩

/-- Every string is its leading whitespace followed by its whitespace-stripped
remainder. -/
theorem skipWs_decomp (cs : Str) : ∃ w, (∀ c ∈ w, isWs c = true) ∧ cs = w ++ skipWs cs :=
  ⟨cs.takeWhile isWs, fun _ hc => List.mem_takeWhile_imp hc,
    (List.takeWhile_append_dropWhile isWs cs).symm⟩

/-- The string parser consumes a prefix of its input: the remainder it
returns is a suffix. -/
theorem parseStr_consume (cs : Str) :
    ∀ s rest, parseStr cs = some (s, rest) → ∃ p, cs = p ++ rest := by
  induction cs using parseStr.induct <;> intro s rest h
  case case1 => simp [parseStr] at h
  case case2 r =>
    simp only [parseStr, Option.some.injEq, Prod.mk.injEq] at h
    obtain ⟨-, h2⟩ := h
    subst h2
    exact ⟨['"'], rfl⟩
  case case3 c r e he ih =>
    simp only [parseStr, he] at h
    rcases hps : parseStr r with _ | ⟨s1, r1⟩ <;> rw [hps] at h
    · simp at h
    · simp only [Option.map_some', Option.some.injEq, Prod.mk.injEq] at h
      obtain ⟨p, hp⟩ := ih s1 r1 hps
      exact ⟨'\\' :: c :: p, by rw [← h.2, hp]; simp⟩
  case case4 c r he =>
    simp [parseStr, he] at h
  case case5 c r hne1 hne2 ih =>
    rw [parseStr] at h
    · rcases hps : parseStr r with _ | ⟨s1, r1⟩ <;> rw [hps] at h
      · simp at h
      · simp only [Option.map_some', Option.some.injEq, Prod.mk.injEq] at h
        obtain ⟨p, hp⟩ := ih s1 r1 hps
        exact ⟨c :: p, by rw [← h.2, hp]; simp⟩
    · exact hne1
    · exact hne2

/-- The number parser consumes a prefix of its input. -/
theorem parseNum_consume (cs : Str) (n : Int) (rest : Str)
    (h : parseNum cs = some (n, rest)) : ∃ p, cs = p ++ rest := by
  simp only [parseNum] at h
  split at h
  · rename_i r1
    split_ifs at h with hd
    simp only [Option.some.injEq, Prod.mk.injEq] at h
    exact ⟨'-' :: r1.takeWhile Char.isDigit, by rw [← h.2]; simp⟩
  · split_ifs at h with hd
    simp only [Option.some.injEq, Prod.mk.injEq] at h
    exact ⟨cs.takeWhile Char.isDigit, by rw [← h.2]; simp⟩



set_option maxHeartbeats 2000000 in
theorem parse_consume (fuel : Nat) :
    (∀ cs j rest, parseVal fuel cs = some (j, rest) → ∃ p, cs = p ++ rest) ∧
    (∀ cs j rest, parseObj fuel cs = some (j, rest) → ∃ p, cs = p ++ '\x7d' :: rest) ∧
    (∀ cs ms rest, parseMembers fuel cs = some (ms, rest) → ∃ p, cs = p ++ '\x7d' :: rest) ∧
    (∀ cs j rest, parseArr fuel cs = some (j, rest) → ∃ p, cs = p ++ ']' :: rest) ∧
    (∀ cs vs rest, parseItems fuel cs = some (vs, rest) → ∃ p, cs = p ++ ']' :: rest) := by
  induction fuel with
  | zero =>
    exact ⟨fun cs a rest h => Option.noConfusion h, fun cs a rest h => Option.noConfusion h,
      fun cs a rest h => Option.noConfusion h, fun cs a rest h => Option.noConfusion h,
      fun cs a rest h => Option.noConfusion h⟩
  | succ f ih =>
    obtain ⟨ihV, ihO, ihM, ihA, ihI⟩ := ih
    refine ⟨?_, ?_, ?_, ?_, ?_⟩
    · -- parseVal
      intro cs j rest h
      obtain ⟨w, hw, hcs⟩ := skipWs_decomp cs
      rw [parseVal] at h
      split at h
      · rename_i x0 rest0 heq
        obtain ⟨p, hp⟩ := ihO rest0 j rest h
        exact ⟨w ++ '\x7b' :: (p ++ ['\x7d']), by rw [hcs, heq, hp]; simp⟩
      · rename_i x0 rest0 heq
        obtain ⟨p, hp⟩ := ihA rest0 j rest h
        exact ⟨w ++ '[' :: (p ++ [']']), by rw [hcs, heq, hp]; simp⟩
      · rename_i x0 rest0 heq
        rcases hps : parseStr rest0 with _ | ⟨s1, r1⟩ <;> rw [hps] at h
        · simp at h
        · simp only [Option.map_some', Option.some.injEq, Prod.mk.injEq] at h
          obtain ⟨-, h2⟩ := h
          rw [← h2]
          obtain ⟨p1, hp1⟩ := parseStr_consume rest0 s1 r1 hps
          exact ⟨w ++ '"' :: p1, by rw [hcs, heq, hp1]; simp⟩
      · rename_i x0 rest0 heq
        simp only [Option.some.injEq, Prod.mk.injEq] at h
        obtain ⟨-, h2⟩ := h
        rw [← h2]
        exact ⟨w ++ ['t', 'r', 'u', 'e'], by rw [hcs, heq]; simp⟩
      · rename_i x0 rest0 heq
        simp only [Option.some.injEq, Prod.mk.injEq] at h
        obtain ⟨-, h2⟩ := h
        rw [← h2]
        exact ⟨w ++ ['f', 'a', 'l', 's', 'e'], by rw [hcs, heq]; simp⟩
      · rename_i x0 rest0 heq
        simp only [Option.some.injEq, Prod.mk.injEq] at h
        obtain ⟨-, h2⟩ := h
        rw [← h2]
        exact ⟨w ++ ['n', 'u', 'l', 'l'], by rw [hcs, heq]; simp⟩
      · rcases hpn : parseNum (skipWs cs) with _ | ⟨nv, r1⟩ <;> rw [hpn] at h
        · simp at h
        · simp only [Option.map_some', Option.some.injEq, Prod.mk.injEq] at h
          obtain ⟨-, h2⟩ := h
          rw [← h2]
          obtain ⟨p1, hp1⟩ := parseNum_consume (skipWs cs) nv r1 hpn
          exact ⟨w ++ p1, by rw [hcs, hp1]; simp⟩
    · -- parseObj
      intro cs j rest h
      obtain ⟨w, hw, hcs⟩ := skipWs_decomp cs
      rw [parseObj] at h
      split at h
      · rename_i x0 rest0 heq
        simp only [Option.some.injEq, Prod.mk.injEq] at h
        obtain ⟨-, h2⟩ := h
        rw [← h2]
        exact ⟨w, by rw [hcs, heq]⟩
      · rcases hpm : parseMembers f cs with _ | ⟨ms1, r1⟩ <;> rw [hpm] at h
        · simp at h
        · simp only [Option.map_some', Option.some.injEq, Prod.mk.injEq] at h
          obtain ⟨-, h2⟩ := h
          rw [← h2]
          exact ihM cs ms1 r1 hpm
    · -- parseMembers
      intro cs ms rest h
      obtain ⟨w, hw, hcs⟩ := skipWs_decomp cs
      rw [parseMembers] at h
      split at h
      · rename_i x0 rest0 heq
        split at h
        · exact Option.noConfusion h
        · rename_i key r1 hps
          obtain ⟨p1, hp1⟩ := parseStr_consume rest0 key r1 hps
          obtain ⟨w1, hw1, hr1⟩ := skipWs_decomp r1
          split at h
          · rename_i r2 heq2
            split at h
            · exact Option.noConfusion h
            · rename_i v r3 hpv
              obtain ⟨p2, hp2⟩ := ihV r2 v r3 hpv
              obtain ⟨w2, hw2, hr3⟩ := skipWs_decomp r3
              split at h
              · rename_i r4 heq3
                split at h
                · exact Option.noConfusion h
                · rename_i ms5 r5 hpm
                  simp only [Option.some.injEq, Prod.mk.injEq] at h
                  obtain ⟨-, h2⟩ := h
                  rw [← h2]
                  obtain ⟨p3, hp3⟩ := ihM r4 ms5 r5 hpm
                  refine ⟨w ++ '"' :: (p1 ++ w1 ++ ':' :: (p2 ++ w2 ++ ',' :: p3)), ?_⟩
                  rw [hcs, heq, hp1, hr1, heq2, hp2, hr3, heq3, hp3]
                  simp [List.append_assoc]
              · rename_i r4 heq3
                simp only [Option.some.injEq, Prod.mk.injEq] at h
                obtain ⟨-, h2⟩ := h
                rw [← h2]
                refine ⟨w ++ '"' :: (p1 ++ w1 ++ ':' :: (p2 ++ w2)), ?_⟩
                rw [hcs, heq, hp1, hr1, heq2, hp2, hr3, heq3]
                simp [List.append_assoc]
              · exact Option.noConfusion h
          · exact Option.noConfusion h
      · exact Option.noConfusion h
    · -- parseArr
      intro cs j rest h
      obtain ⟨w, hw, hcs⟩ := skipWs_decomp cs
      rw [parseArr] at h
      split at h
      · rename_i x0 rest0 heq
        simp only [Option.some.injEq, Prod.mk.injEq] at h
        obtain ⟨-, h2⟩ := h
        rw [← h2]
        exact ⟨w, by rw [hcs, heq]⟩
      · rcases hpi : parseItems f cs with _ | ⟨vs1, r1⟩ <;> rw [hpi] at h
        · simp at h
        · simp only [Option.map_some', Option.some.injEq, Prod.mk.injEq] at h
          obtain ⟨-, h2⟩ := h
          rw [← h2]
          exact ihI cs vs1 r1 hpi
    · -- parseItems
      intro cs vs rest h
      rw [parseItems] at h
      split at h
      · exact Option.noConfusion h
      · rename_i v r1 hpv
        obtain ⟨p1, hp1⟩ := ihV cs v r1 hpv
        obtain ⟨w1, hw1, hr1⟩ := skipWs_decomp r1
        split at h
        · rename_i r2 heq2
          split at h
          · exact Option.noConfusion h
          · rename_i vs3 r3 hpi
            simp only [Option.some.injEq, Prod.mk.injEq] at h
            obtain ⟨-, h2⟩ := h
            rw [← h2]
            obtain ⟨p2, hp2⟩ := ihI r2 vs3 r3 hpi
            refine ⟨p1 ++ w1 ++ ',' :: p2, ?_⟩
            rw [hp1, hr1, heq2, hp2]
            simp [List.append_assoc]
        · rename_i r2 heq2
          simp only [Option.some.injEq, Prod.mk.injEq] at h
          obtain ⟨-, h2⟩ := h
          rw [← h2]
          refine ⟨p1 ++ w1, ?_⟩
          rw [hp1, hr1, heq2]
          simp [List.append_assoc]
        · exact Option.noConfusion h

/-- A nonempty head characterisation. -/
theorem head?_eq_cons {l : Str} {a : Char} (h : l.head? = some a) : ∃ t, l = a :: t := by
  cases l with
  | nil => simp at h
  | cons x t =>
    simp only [List.head?_cons, Option.some.injEq] at h
    exact ⟨t, by rw [h]⟩

/-- Every string is leading whitespace, its trim, and trailing whitespace. -/
theorem jsTrim_decomp (cs : Str) :
    ∃ w1 w2, (∀ c ∈ w1, isWs c = true) ∧ (∀ c ∈ w2, isWs c = true) ∧
      cs = w1 ++ jsTrim cs ++ w2 := by
  refine ⟨cs.takeWhile isWs, ((cs.dropWhile isWs).reverse.takeWhile isWs).reverse,
    fun _ hc => List.mem_takeWhile_imp hc, ?_, ?_⟩
  · intro c hc
    rw [List.mem_reverse] at hc
    exact List.mem_takeWhile_imp hc
  · have h3 : (cs.dropWhile isWs).reverse.reverse =
        ((cs.dropWhile isWs).reverse.takeWhile isWs ++
          (cs.dropWhile isWs).reverse.dropWhile isWs).reverse :=
      congrArg List.reverse (List.takeWhile_append_dropWhile isWs (cs.dropWhile isWs).reverse).symm
    rw [List.reverse_reverse, List.reverse_append] at h3
    conv_lhs => rw [← List.takeWhile_append_dropWhile isWs cs, h3]
    simp [jsTrim, List.append_assoc]

/-- The last character of a trimmed string is not whitespace. -/
theorem jsTrim_last_not_ws (cs : Str) (c : Char)
    (h : (jsTrim cs).getLast? = some c) : isWs c = false := by
  unfold jsTrim at h
  rw [List.getLast?_reverse] at h
  have hnot := List.head?_dropWhile_not isWs (cs.dropWhile isWs).reverse
  rw [h] at hnot
  exact hnot

/-- A complete parse of a text that opens with a brace consumes up to a
closing brace, followed only by material the top level ignores. -/
theorem jsonParse_brace_shape (t0 : Str) (j : Json)
    (h : jsonParse ('\x7b' :: t0) = some j) :
    ∃ p rest, t0 = p ++ '\x7d' :: rest ∧ ∀ c ∈ rest, isWs c = true := by
  unfold jsonParse at h
  split at h
  case h_2 => exact Option.noConfusion h
  case h_1 x0 j1 rest hpv =>
    split_ifs at h with hr
    rw [parseVal] at hpv
    rw [show skipWs ('\x7b' :: t0) = '\x7b' :: t0 from
      List.dropWhile_cons_of_neg (by decide)] at hpv
    obtain ⟨p, hp⟩ := (parse_consume ('\x7b' :: t0).length).2.1 t0 j1 rest hpv
    exact ⟨p, rest, hp, fun c hc => List.dropWhile_eq_nil_iff.mp hr c hc⟩

/-- A trimmed text that opens with a brace and parses completely closes with
a brace. -/
theorem jsonParse_trim_shape (raw t0 : Str) (j : Json)
    (ht : jsTrim raw = '\x7b' :: t0)
    (h : jsonParse (jsTrim raw) = some j) :
    ∃ p, jsTrim raw = '\x7b' :: (p ++ ['\x7d']) := by
  rw [ht] at h
  obtain ⟨p, rest, hp, hws⟩ := jsonParse_brace_shape t0 j h
  cases hrest : rest with
  | nil =>
    refine ⟨p, ?_⟩
    rw [ht, hp, hrest]
  | cons r0 rs =>
    exfalso
    rw [hrest] at hws hp
    have hlast : (jsTrim raw).getLast? = some ((r0 :: rs).getLast (by simp)) := by
      rw [ht, hp,
        show ('\x7b' : Char) :: (p ++ '\x7d' :: r0 :: rs) =
          (('\x7b' :: p) ++ ['\x7d']) ++ (r0 :: rs) from by simp,
        List.getLast?_append_of_ne_nil _ (by simp)]
      exact List.getLast?_eq_getLast _ (by simp)
    have hnws := jsTrim_last_not_ws raw _ hlast
    rw [hws _ (List.getLast_mem (by simp))] at hnws
    exact Bool.noConfusion hnws

/-- Claim C4: a model response whose trimmed text opens with a brace and
parses directly yields the direct parse of the whole trimmed response in all
four analyze variants (in `route.ts` the greedy regex recovers exactly the
trimmed text, so its result coincides with the direct parse). -/
theorem C4_thm (raw : Str) (j : Json)
    (hstart : (jsTrim raw).head? = some '\x7b')
    (hparse : jsonParse (jsTrim raw) = some j) :
    extractDirectThenRegex raw = .ok j ∧
      extractForm5 raw = .ok j ∧
      extractRegexOnly raw = .ok j := by
  refine ⟨?_, ?_, ?_⟩
  · simp [extractDirectThenRegex, hstart, hparse]
  · simp [extractForm5, hstart, hparse]
  · obtain ⟨t0, ht⟩ := head?_eq_cons hstart
    obtain ⟨p, hshape⟩ := jsonParse_trim_shape raw t0 j ht hparse
    obtain ⟨w1, w2, hw1, hw2, hdec⟩ := jsTrim_decomp raw
    have hg : greedyMatch raw = some (jsTrim raw) := by
      conv_lhs => rw [hdec]
      apply greedyMatch_exact
      · intro c hc hceq
        have := hw1 c hc
        subst hceq
        exact absurd this (by decide)
      · intro c hc hceq
        have := hw2 c hc
        subst hceq
        exact absurd this (by decide)
      · exact hstart
      · rw [hshape, show ('\x7b' : Char) :: (p ++ ['\x7d']) = ('\x7b' :: p) ++ ['\x7d'] from by simp,
          List.getLast?_concat]
    simp [extractRegexOnly, hg, hparse]

/-- Witness for C4 at a concrete whitespace-wrapped direct-parse response. -/
theorem C4_witness :
    extractDirectThenRegex (S "  \x7b\"a\":1\x7d ") = .ok (Json.obj [(S "a", Json.num 1)]) ∧
      extractForm5 (S "  \x7b\"a\":1\x7d ") = .ok (Json.obj [(S "a", Json.num 1)]) ∧
      extractRegexOnly (S "  \x7b\"a\":1\x7d ") = .ok (Json.obj [(S "a", Json.num 1)]) :=
  C4_thm (S "  \x7b\"a\":1\x7d ") (Json.obj [(S "a", Json.num 1)]) rfl rfl

/-- When the greedy regex finds no span in a text opening with a brace, the
text contains no closing brace at all. -/
theorem greedy_none_no_rbrace (t0 : Str) (h : greedyMatch ('\x7b' :: t0) = none) :
    ∀ c ∈ ('\x7b' :: t0), c ≠ '\x7d' := by
  simp only [greedyMatch] at h
  rw [List.dropWhile_cons_of_neg (by simp)] at h
  split_ifs at h with hu
  rw [List.isEmpty_iff, List.reverse_eq_nil_iff, List.dropWhile_eq_nil_iff] at hu
  intro c hc hceq
  have := hu c (List.mem_reverse.mpr hc)
  subst hceq
  simp at this

/-- When the greedy regex finds no span in the trimmed response, the direct
parse step of the extraction also fails. -/
theorem method1_none_of_greedy_none (raw : Str)
    (hg : greedyMatch (jsTrim raw) = none) :
    (if (jsTrim raw).head? = some '\x7b' then jsonParse (jsTrim raw) else none) = none := by
  split_ifs with hs
  · cases hp : jsonParse (jsTrim raw) with
    | none => rfl
    | some j =>
      exfalso
      obtain ⟨t0, ht⟩ := head?_eq_cons hs
      rw [ht] at hp hg
      obtain ⟨p, rest, hshape, -⟩ := jsonParse_brace_shape t0 j hp
      exact greedy_none_no_rbrace t0 hg '\x7d' (by simp [hshape]) rfl
  · rfl

/-- A classified blob-variant failure is never a success response. -/
theorem classifyCatchBlob_not_ok (m : Str) : (classifyCatchBlob m).isSuccess = false := by
  simp only [classifyCatchBlob]
  split_ifs <;> rfl

/-- Counterexample to claim C2 as stated: on a prose-only response, the
blob-URL variant raises a fixed diagnostic that does not carry any prefix of
the raw response, and the endpoint answers 500 with that fixed message. -/
theorem C2_counterexample :
    extractDirectThenRegex (S "The drawing looks fine overall.") =
        .error (S "Could not parse JSON from Claude response.") ∧
      jsIncludes (S "Could not parse JSON from Claude response.")
        ((S "The drawing looks fine overall.").take 100) = false ∧
      POST_blob (S "P") (fun _ => ModelResult.text (S "The drawing looks fine overall."))
          (.ok (S "B")) ⟨some (S "u"), none, none⟩ =
        .err 500 (S "Could not parse JSON from Claude response.") :=
  ⟨rfl, by decide, rfl⟩

/-- A classified 11MB-form-variant failure is never a success response. -/
theorem classifyCatchForm11_not_ok (m : Str) : (classifyCatchForm11 m).isSuccess = false := by
  simp only [classifyCatchForm11]
  split_ifs <;> rfl

/-- Every diagnostic the blob-URL/11MB-form extraction can raise is one of
two fixed constants, neither built from the raw response. -/
theorem extractDirectThenRegex_error_fixed (raw e : Str)
    (h : extractDirectThenRegex raw = .error e) :
    e = S "Invalid JSON in Claude response" ∨
      e = S "Could not parse JSON from Claude response." := by
  simp only [extractDirectThenRegex] at h
  split at h
  · exact Except.noConfusion h
  · split at h
    · split at h
      · exact Except.noConfusion h
      · simp only [Except.error.injEq] at h
        exact Or.inl h.symm
    · simp only [Except.error.injEq] at h
      exact Or.inr h.symm

/-- When extraction of the model response fails, the blob-URL endpoint never
returns a success response, whatever the request body and fetch outcome. -/
theorem POST_blob_error_never_ok (prompt raw e : Str) (body : BlobBody) (fp : FetchResult)
    (h : extractDirectThenRegex raw = .error e) :
    (POST_blob prompt (fun _ => ModelResult.text raw) fp body).isSuccess = false := by
  simp only [POST_blob]
  rcases hb : body.blobUrl with _ | (_ | ⟨c, us⟩)
  · rfl
  · rfl
  · rcases fp with m | _ | bytes
    · exact classifyCatchBlob_not_ok m
    · exact classifyCatchBlob_not_ok _
    · simp only [h]
      exact classifyCatchBlob_not_ok e

/-- When extraction of the model response fails, the 11MB form endpoint never
returns a success response, whatever the request. -/
theorem POST_form11_error_never_ok (prompt raw e : Str) (req : FormReq)
    (h : extractDirectThenRegex raw = .error e) :
    (POST_form11 prompt (fun _ => ModelResult.text raw) req).isSuccess = false := by
  simp only [POST_form11]
  rcases hp : parseProjectTypeField req.projectType with _ | pt
  · exact classifyCatchForm11_not_ok _
  · rcases hpdf : req.pdf with _ | f
    · rfl
    · by_cases hs : f.size > MAX_FILE_SIZE_11
      · simp only [if_pos hs]
        rfl
      · simp only [if_neg hs]
        rcases hcn : contextNoteStrict pt with m | note
        · exact classifyCatchForm11_not_ok m
        · simp only [h]
          exact classifyCatchForm11_not_ok e

/-- Claim C2 amended: a response whose extraction fails makes the blob-URL
and 11MB form endpoints answer through their catch classifiers and never
with a success response; the raised diagnostic is always one of two fixed
messages carrying no prefix of the raw response, and when no brace span
exists it is the could-not-parse message (the 5MB form variant appends the
first 100 characters of the trimmed response instead). -/
theorem C2_thm (prompt bytes : Str) (c0 : Char) (u : Str) (fn : Option Str)
    (pt : Option Json) (f : FileRec) (ptf : Option Str) (kvs : List (Str × Json))
    (raw e : Str)
    (hpt : parseProjectTypeField ptf = some (Json.obj kvs))
    (hsz : f.size ≤ MAX_FILE_SIZE_11)
    (h : extractDirectThenRegex raw = .error e) :
    POST_blob prompt (fun _ => ModelResult.text raw) (.ok bytes) ⟨some (c0 :: u), fn, pt⟩ =
        classifyCatchBlob e ∧
      POST_form11 prompt (fun _ => ModelResult.text raw) ⟨some f, ptf⟩ =
        classifyCatchForm11 e ∧
      (∀ (body : BlobBody) (fp : FetchResult),
        (POST_blob prompt (fun _ => ModelResult.text raw) fp body).isSuccess = false) ∧
      (∀ req : FormReq,
        (POST_form11 prompt (fun _ => ModelResult.text raw) req).isSuccess = false) ∧
      (e = S "Invalid JSON in Claude response" ∨
        e = S "Could not parse JSON from Claude response.") ∧
      (greedyMatch (jsTrim raw) = none →
        e = S "Could not parse JSON from Claude response." ∧
          extractForm5 raw =
            .error (S "Could not parse JSON from Claude response. Response started with: \"" ++
              (jsTrim raw).take 100 ++ S "\"")) := by
  have hns : ¬ f.size > MAX_FILE_SIZE_11 := Nat.not_lt.mpr hsz
  refine ⟨by simp only [POST_blob, h], by simp [POST_form11, hpt, contextNoteStrict_obj, h, hns],
    fun body fp => POST_blob_error_never_ok prompt raw e body fp h,
    fun req => POST_form11_error_never_ok prompt raw e req h,
    extractDirectThenRegex_error_fixed raw e h, ?_⟩
  intro hg
  have hm1 := method1_none_of_greedy_none raw hg
  have hfix : extractDirectThenRegex raw = .error (S "Could not parse JSON from Claude response.") := by
    simp only [extractDirectThenRegex, hm1, hg]
  rw [h] at hfix
  simp only [Except.error.injEq] at hfix
  exact ⟨hfix, by simp only [extractForm5, hm1, hg]⟩

/-- Witness for the amended C2 at the concrete prose-only response. -/
theorem C2_witness :
    POST_form11 (S "P") (fun _ => ModelResult.text (S "The drawing looks fine overall."))
        ⟨some ⟨S "d.pdf", S "application/pdf", 1000, S "B"⟩, none⟩ =
        classifyCatchForm11 (S "Could not parse JSON from Claude response.") ∧
      (POST_blob (S "P") (fun _ => ModelResult.text (S "The drawing looks fine overall."))
          (.ok (S "B")) ⟨some (S "u"), none, none⟩).isSuccess = false ∧
      extractForm5 (S "The drawing looks fine overall.") =
        .error (S "Could not parse JSON from Claude response. Response started with: \"" ++
          (jsTrim (S "The drawing looks fine overall.")).take 100 ++ S "\"") :=
  ⟨(C2_thm (S "P") (S "B") 'u' [] none none ⟨S "d.pdf", S "application/pdf", 1000, S "B"⟩
      none [] (S "The drawing looks fine overall.")
      (S "Could not parse JSON from Claude response.") rfl (by decide) rfl).2.1,
    (C2_thm (S "P") (S "B") 'u' [] none none ⟨S "d.pdf", S "application/pdf", 1000, S "B"⟩
      none [] (S "The drawing looks fine overall.")
      (S "Could not parse JSON from Claude response.") rfl (by decide) rfl).2.2.1
      ⟨some (S "u"), none, none⟩ (.ok (S "B")),
    ((C2_thm (S "P") (S "B") 'u' [] none none ⟨S "d.pdf", S "application/pdf", 1000, S "B"⟩
      none [] (S "The drawing looks fine overall.")
      (S "Could not parse JSON from Claude response.") rfl (by decide) rfl).2.2.2.2.2 rfl).2⟩
